import Mathlib

/-!
# Sign-up form: validation rules and submission flow

A shallow embedding of `src/components/SignUpForm.jsx`.

* JavaScript strings are sequences of UTF-16 code units (`JSString`).
* The regular expressions of the component are written in a small abstract
  syntax that covers exactly the constructs the component uses (pattern
  characters, `.`, character classes, `^`, `$`, `+`, `{n,}` and the `i` flag)
  and are run by a backtracking matcher that follows `RegExp.prototype.test`.
* The React state of the component is the record `State`; every event handler
  is a function on `State`, and `useEffect` is re-run after a handler exactly
  when one of its dependencies changed.
-/

namespace SignUpForm

/-! ## Strings -/

/-- A JavaScript string: its sequence of UTF-16 code units, each a number
below 65536. -/
abbrev JSString := List Nat

/-- The UTF-16 encoding of one Unicode scalar value. -/
def utf16Char (c : Char) : List Nat :=
  if c.toNat < 65536 then [c.toNat]
  else [55296 + (c.toNat - 65536) / 1024, 56320 + (c.toNat - 65536) % 1024]

/-- The JavaScript string written by a string literal. -/
def utf16 (s : String) : JSString :=
  s.toList.flatMap utf16Char

/-- JavaScript truthiness of a string: only the empty string is falsy. -/
def truthy (s : JSString) : Bool :=
  !s.isEmpty

/-! ## Regular expressions -/

/-- One member of a character class. -/
inductive ClassItem where
  /-- A single character, as `%` in `[%+]`. -/
  | single (c : Nat)
  /-- A range, as `A-Z`. -/
  | range (lo hi : Nat)
  /-- The class escape `\w`. -/
  | word
  deriving DecidableEq

/-- An atom consumes one code unit. -/
inductive Atom where
  /-- A pattern character, as `@`, or an escaped one, as `\.`. -/
  | lit (c : Nat)
  /-- The wildcard `.`. -/
  | dot
  /-- A character class `[...]`, or `[^...]` when `negated`. -/
  | cls (negated : Bool) (items : List ClassItem)
  deriving DecidableEq

/-- A term of a pattern: an assertion or a (possibly quantified) atom. -/
inductive Term where
  /-- The assertion `^`. -/
  | bol
  /-- The assertion `$`. -/
  | eol
  /-- An atom without quantifier. -/
  | one (a : Atom)
  /-- The quantified atom `a{n,}`; `a+` is `a{1,}`. -/
  | atLeast (n : Nat) (a : Atom)
  deriving DecidableEq

/-- A regular expression literal: a sequence of terms and the `i` flag. None of
the component's literals has the `g`, `y`, `m`, `s` or `u` flag. -/
structure RegExp where
  terms : List Term
  ignoreCase : Bool
  deriving DecidableEq

/-- The code units `lo, lo+1, ..., hi`. -/
def codeUnitsFromTo (lo hi : Nat) : List Nat :=
  (List.range (hi + 1 - lo)).map (fun k => lo + k)

/-- The characters a class item stands for. `\w` is `[A-Za-z0-9_]`. -/
def ClassItem.chars : ClassItem → List Nat
  | .single c => [c]
  | .range lo hi => codeUnitsFromTo lo hi
  | .word =>
      codeUnitsFromTo 'a'.toNat 'z'.toNat ++ codeUnitsFromTo 'A'.toNat 'Z'.toNat
        ++ codeUnitsFromTo '0'.toNat '9'.toNat ++ ['_'.toNat]

/-- Line terminators: LF, CR, LINE SEPARATOR, PARAGRAPH SEPARATOR. -/
def isLineTerminator (ch : Nat) : Bool :=
  ch == 10 || ch == 13 || ch == 8232 || ch == 8233

/-- Canonicalize of the (non-unicode) matcher: the identity without the `i`
flag; with it a code unit is replaced by its upper-case form, except that a
code unit from 128 on is never replaced by one below 128. Only the ASCII part
of the upper-case table is written out: every other code unit is left as it
is, which gives the same matches against the ASCII-only patterns used here. -/
def canonicalize (ignoreCase : Bool) (ch : Nat) : Nat :=
  if ignoreCase && decide ('a'.toNat ≤ ch) && decide (ch ≤ 'z'.toNat) then ch - 32 else ch

/-- Whether an atom accepts a code unit. A class accepts it when one of its
characters has the same canonical form, and a negated class when none has. -/
def Atom.accepts (ignoreCase : Bool) : Atom → Nat → Bool
  | .lit c, ch => canonicalize ignoreCase c == canonicalize ignoreCase ch
  | .dot, ch => !isLineTerminator ch
  | .cls negated items, ch =>
      (items.flatMap ClassItem.chars).any
        (fun a => canonicalize ignoreCase a == canonicalize ignoreCase ch) != negated

/-- Whether the terms match a prefix of `rest`, the part of the input from the
current position on; `atStart` says that the current position is 0. A
quantified atom may consume any number of code units from its minimum up to
the longest run it accepts (backtracking). -/
def matchTerms (ignoreCase : Bool) : List Term → Bool → JSString → Bool
  | [], _, _ => true
  | .bol :: ts, atStart, rest => atStart && matchTerms ignoreCase ts atStart rest
  | .eol :: ts, atStart, rest => rest.isEmpty && matchTerms ignoreCase ts atStart rest
  | .one _ :: _, _, [] => false
  | .one a :: ts, _, ch :: cs => a.accepts ignoreCase ch && matchTerms ignoreCase ts false cs
  | .atLeast n a :: ts, atStart, rest =>
      (List.range ((rest.takeWhile (a.accepts ignoreCase)).length + 1)).any
        (fun k => decide (n ≤ k) && matchTerms ignoreCase ts (atStart && k == 0) (rest.drop k))

/-- The search loop of `test`: try a match at the current position, then at
each later one. -/
def searchFrom (r : RegExp) : Bool → JSString → Bool
  | atStart, [] => matchTerms r.ignoreCase r.terms atStart []
  | atStart, ch :: cs =>
      matchTerms r.ignoreCase r.terms atStart (ch :: cs) || searchFrom r false cs

/-- The method `regex.test(s)`: whether the pattern matches somewhere in `s`. -/
def RegExp.test (r : RegExp) (s : JSString) : Bool :=
  searchFrom r true s

/-! ## The component -/

/-- An entry of `passwordRequirements`. -/
structure Requirement where
  regex : RegExp
  message : String
  deriving DecidableEq

/-- The literal `/[A-Z]/`. -/
def upperCaseRegex : RegExp :=
  ⟨[.one (.cls false [.range 'A'.toNat 'Z'.toNat])], false⟩

/-- The literal `/[a-z]/`. -/
def lowerCaseRegex : RegExp :=
  ⟨[.one (.cls false [.range 'a'.toNat 'z'.toNat])], false⟩

/-- The literal `/[0-9]/`. -/
def digitRegex : RegExp :=
  ⟨[.one (.cls false [.range '0'.toNat '9'.toNat])], false⟩

/-- The literal `/[^A-Za-z0-9]/`. -/
def specialRegex : RegExp :=
  ⟨[.one (.cls true [.range 'A'.toNat 'Z'.toNat, .range 'a'.toNat 'z'.toNat,
      .range '0'.toNat '9'.toNat])], false⟩

/-- The literal `/.{6,}/`. -/
def lengthRegex : RegExp :=
  ⟨[.atLeast 6 .dot], false⟩

/-- The literal `/^[\w._%+-]+@gmail\.com$/i`. -/
def gmailRegex : RegExp :=
  ⟨[.bol,
    .atLeast 1 (.cls false [.word, .single '.'.toNat, .single '_'.toNat, .single '%'.toNat,
      .single '+'.toNat, .single '-'.toNat]),
    .one (.lit '@'.toNat),
    .one (.lit 'g'.toNat), .one (.lit 'm'.toNat), .one (.lit 'a'.toNat), .one (.lit 'i'.toNat),
    .one (.lit 'l'.toNat),
    .one (.lit '.'.toNat),
    .one (.lit 'c'.toNat), .one (.lit 'o'.toNat), .one (.lit 'm'.toNat),
    .eol], true⟩

/-- The array `passwordRequirements` of `validatePassword`. -/
def passwordRequirements : List Requirement :=
  [ ⟨upperCaseRegex, "at least one uppercase letter"⟩,
    ⟨lowerCaseRegex, "at least one lowercase letter"⟩,
    ⟨digitRegex, "at least one number"⟩,
    ⟨specialRegex, "at least one special character"⟩,
    ⟨lengthRegex, "at least 6 characters long"⟩ ]

/-- An object whose properties are strings, as `formErrors`: its properties in
insertion order. -/
abbrev FormErrors := List (String × String)

/-- The assignment `o.k = v`: overwrites the property when `o` has it, adds it
after the others when not. -/
def FormErrors.set (o : FormErrors) (k v : String) : FormErrors :=
  if o.any (fun p => p.1 == k) then o.map (fun p => if p.1 == k then (k, v) else p)
  else o ++ [(k, v)]

/-- The property read `o.k`; `none` is `undefined`. -/
def FormErrors.get (o : FormErrors) (k : String) : Option String :=
  o.lookup k

/-- The state of the component: its eleven `useState` cells. -/
structure State where
  username : JSString
  email : JSString
  password : JSString
  confirmPassword : JSString
  showPassword : Bool
  showConfirmPassword : Bool
  errors : FormErrors
  passwordErrors : List Requirement
  showPasswordValidation : Bool
  isSubmitting : Bool
  successMessage : String
  deriving DecidableEq

/-- The initial values of the `useState` cells. -/
def State.init : State where
  username := []
  email := []
  password := []
  confirmPassword := []
  showPassword := false
  showConfirmPassword := false
  errors := []
  passwordErrors := []
  showPasswordValidation := false
  isSubmitting := false
  successMessage := ""

/-- The constant `unmetRequirements` of `validatePassword`. -/
def unmetRequirements (password : JSString) : List Requirement :=
  passwordRequirements.filter (fun req => !req.regex.test password)

/-- The function `validatePassword`: stores the unmet requirements. -/
def validatePassword (s : State) (password : JSString) : State :=
  { s with passwordErrors := unmetRequirements password }

/-- The object `formErrors` that `validateForm` builds. -/
def formErrorsOf (s : State) : FormErrors :=
  let formErrors : FormErrors := []
  let formErrors :=
    if !truthy s.username then formErrors.set "username" "Username is required" else formErrors
  let formErrors :=
    if !truthy s.email then formErrors.set "email" "Email is required"
    else if !gmailRegex.test s.email then
      formErrors.set "email" "Email must be a valid @gmail.com address"
    else formErrors
  let formErrors :=
    if !truthy s.password then formErrors.set "password" "Password is required" else formErrors
  let formErrors :=
    if s.passwordErrors.length > 0 then
      formErrors.set "password" "Password does not meet the requirements"
    else formErrors
  let formErrors :=
    if !truthy s.confirmPassword then
      formErrors.set "confirmPassword" "Confirm Password is required"
    else formErrors
  let formErrors :=
    if s.password != s.confirmPassword then
      formErrors.set "confirmPassword" "Passwords do not match"
    else formErrors
  formErrors

/-- The function `validateForm`: stores `formErrors` and returns whether it has
no property. -/
def validateForm (s : State) : State × Bool :=
  let formErrors := formErrorsOf s
  ({ s with errors := formErrors }, formErrors.length == 0)

/-- The object `formData` of `handleSubmit`. -/
structure FormData where
  username : JSString
  email : JSString
  password : JSString
  deriving DecidableEq

/-- The function `handleSubmit` up to its `await`: the state it leaves, and the
data of the submission it started, if it started one. -/
def handleSubmit (s : State) : State × Option FormData :=
  let (s1, valid) := validateForm s
  if valid then
    ({ s1 with isSubmitting := true, successMessage := "" },
      some ⟨s.username, s.email, s.password⟩)
  else (s1, none)

/-- The function `handleSubmit` from its `await` on, run on the state of that
moment: the rest of the `try` block when the awaited promise is fulfilled
(`ok`), the `catch` block when it is rejected, then the `finally` block. -/
def handleSubmitSettled (ok : Bool) (s : State) : State :=
  let s1 : State :=
    if ok then
      { s with
        successMessage := "Registration successful!"
        username := []
        email := []
        password := []
        confirmPassword := []
        errors := []
        passwordErrors := []
        showPasswordValidation := false }
    else
      { s with
        errors := FormErrors.set [] "submit" "An error occurred during submission. Please try again." }
  { s1 with isSubmitting := false }

/-- The `useEffect` of the component, after a render that replaced the state
`prev` by `next`: it runs when `password` or `showPasswordValidation` changed. -/
def useEffect (prev next : State) : State :=
  if next.password != prev.password
      || next.showPasswordValidation != prev.showPasswordValidation then
    if next.showPasswordValidation then validatePassword next next.password else next
  else next

/-- The events of the form. -/
inductive Event where
  /-- The `onChange` of the username input. -/
  | changeUsername (value : JSString)
  /-- The `onChange` of the email input. -/
  | changeEmail (value : JSString)
  /-- The `onChange` of the password input. -/
  | changePassword (value : JSString)
  /-- The `onChange` of the confirm-password input. -/
  | changeConfirmPassword (value : JSString)
  /-- The `onFocus` of the password input. -/
  | focusPassword
  /-- The `onClick` of the eye next to the password input. -/
  | toggleShowPassword
  /-- The `onClick` of the eye next to the confirm-password input. -/
  | toggleShowConfirmPassword
  /-- The `onSubmit` of the form. -/
  | submit
  /-- The promise awaited by `handleSubmit` is fulfilled (`ok`) or rejected. -/
  | settle (ok : Bool)
  deriving DecidableEq

/-- The state the handler of an event leaves. -/
def handle (s : State) : Event → State
  | .changeUsername v => { s with username := v }
  | .changeEmail v => { s with email := v }
  | .changePassword v => { s with password := v }
  | .changeConfirmPassword v => { s with confirmPassword := v }
  | .focusPassword => { s with showPasswordValidation := true }
  | .toggleShowPassword => { s with showPassword := !s.showPassword }
  | .toggleShowConfirmPassword => { s with showConfirmPassword := !s.showConfirmPassword }
  | .submit => (handleSubmit s).1
  | .settle ok => handleSubmitSettled ok s

/-- One event: its handler, then the effect. -/
def step (s : State) (e : Event) : State :=
  useEffect s (handle s e)

/-- Whether an event can occur in a state: the submit button is disabled while
`isSubmitting`, and a promise settles only while a submission is under way. -/
def enabled (s : State) : Event → Bool
  | .submit => !s.isSubmitting
  | .settle _ => s.isSubmitting
  | _ => true

/-- The state after a sequence of events, `none` when one of them cannot occur. -/
def run (s : State) : List Event → Option State
  | [] => some s
  | e :: es => if enabled s e then run (step s e) es else none

/-- The states the form can be in: those a sequence of events leads to from
the initial state. The effect does nothing on mount, where
`showPasswordValidation` is false. -/
def Reachable (s : State) : Prop :=
  ∃ es : List Event, run State.init es = some s

/-! ## Vocabulary of the specification -/

/-- An uppercase letter `A`-`Z`. -/
def IsUpperCaseLetter (c : Nat) : Prop :=
  'A'.toNat ≤ c ∧ c ≤ 'Z'.toNat

/-- A lowercase letter `a`-`z`. -/
def IsLowerCaseLetter (c : Nat) : Prop :=
  'a'.toNat ≤ c ∧ c ≤ 'z'.toNat

/-- A digit `0`-`9`. -/
def IsDigit (c : Nat) : Prop :=
  '0'.toNat ≤ c ∧ c ≤ '9'.toNat

/-- A character of `A-Za-z0-9`. -/
def IsAlphanumeric (c : Nat) : Prop :=
  IsUpperCaseLetter c ∨ IsLowerCaseLetter c ∨ IsDigit c

instance instDecidableIsUpperCaseLetter (c : Nat) : Decidable (IsUpperCaseLetter c) :=
  inferInstanceAs (Decidable (_ ∧ _))

instance instDecidableIsLowerCaseLetter (c : Nat) : Decidable (IsLowerCaseLetter c) :=
  inferInstanceAs (Decidable (_ ∧ _))

instance instDecidableIsDigit (c : Nat) : Decidable (IsDigit c) :=
  inferInstanceAs (Decidable (_ ∧ _))

instance instDecidableIsAlphanumeric (c : Nat) : Decidable (IsAlphanumeric c) :=
  inferInstanceAs (Decidable (_ ∨ _))

/-- The five password rules as the specification words them: an uppercase
letter, a lowercase letter, a digit, a character outside `A-Za-z0-9`, and a
length of at least 6. -/
def MeetsAllRequirements (s : JSString) : Prop :=
  (∃ c ∈ s, IsUpperCaseLetter c) ∧ (∃ c ∈ s, IsLowerCaseLetter c) ∧ (∃ c ∈ s, IsDigit c) ∧
    (∃ c ∈ s, ¬ IsAlphanumeric c) ∧ 6 ≤ s.length

instance instDecidableMeetsAllRequirements (s : JSString) : Decidable (MeetsAllRequirements s) :=
  inferInstanceAs (Decidable (_ ∧ _))

/-- A run of at least `n` consecutive code units of `s`, none of them a line
terminator: what `.{n,}` looks for. -/
def HasRunWithoutLineTerminator (n : Nat) (s : JSString) : Prop :=
  ∃ pre mid post : JSString, s = pre ++ mid ++ post ∧ n ≤ mid.length
    ∧ ∀ c ∈ mid, isLineTerminator c = false

/-- A word character `[A-Za-z0-9_]`. -/
def IsWordChar (c : Nat) : Prop :=
  IsAlphanumeric c ∨ c = '_'.toNat

/-- A character allowed in the local part: a word character or one of
`.`, `_`, `%`, `+`, `-`. -/
def IsLocalPartChar (c : Nat) : Prop :=
  IsWordChar c ∨ c = '.'.toNat ∨ c = '_'.toNat ∨ c = '%'.toNat ∨ c = '+'.toNat ∨ c = '-'.toNat

/-- The lowercase form of an ASCII letter; any other code unit is unchanged. -/
def asciiLowerCase (c : Nat) : Nat :=
  if 'A'.toNat ≤ c ∧ c ≤ 'Z'.toNat then c + 32 else c

/-- Equality of two strings up to the case of their ASCII letters. -/
def EqIgnoringCase (a b : JSString) : Prop :=
  a.map asciiLowerCase = b.map asciiLowerCase

/-- The form `localpart@gmail.com` of the specification: a non-empty local part
of allowed characters, an `@`, and a domain that is `gmail.com` up to case. -/
def IsGmailAddress (s : JSString) : Prop :=
  ∃ localPart domain : JSString,
    s = localPart ++ utf16 "@" ++ domain ∧ localPart ≠ [] ∧
      (∀ c ∈ localPart, IsLocalPartChar c) ∧ EqIgnoringCase domain (utf16 "gmail.com")

/-- Two states with the same values in the four input fields. -/
def SameFieldValues (s t : State) : Prop :=
  s.username = t.username ∧ s.email = t.email ∧ s.password = t.password
    ∧ s.confirmPassword = t.confirmPassword

instance instDecidableSameFieldValues (s t : State) : Decidable (SameFieldValues s t) :=
  inferInstanceAs (Decidable (_ ∧ _))

/-- What the effect maintains: while the password rules are displayed,
`passwordErrors` is the list for the current password; while they are not, it
is empty. -/
def EffectInvariant (s : State) : Prop :=
  s.passwordErrors = if s.showPasswordValidation then unmetRequirements s.password else []

/-! ## Auxiliary definitions for the proofs -/

/-- The terms for a sequence of pattern characters followed by `$`. -/
def litTerms (cs : List Nat) : List Term :=
  cs.map (fun c => Term.one (Atom.lit c)) ++ [Term.eol]

/-- The character class `[\w._%+-]` of the email pattern. -/
def localPartClass : Atom :=
  .cls false [.word, .single '.'.toNat, .single '_'.toNat, .single '%'.toNat,
      .single '+'.toNat, .single '-'.toNat]

/-! ## Concrete inputs -/

/-- The password `Aa1!`, LINE SEPARATOR (U+2028), `b`: six code units. -/
def lineSeparatorPassword : JSString :=
  utf16 "Aa1!\u2028b"

/-- The form after the password input got the focus, nothing typed yet. -/
def focusedEmptyForm : State :=
  step State.init .focusPassword

/-- A state with the four given field values and everything else initial. -/
def formWith (username email password confirmPassword : String) : State :=
  { State.init with
    username := utf16 username
    email := utf16 email
    password := utf16 password
    confirmPassword := utf16 confirmPassword }

/-- Filling in a valid form, the password input focused first. -/
def fillValidForm : List Event :=
  [ .changeUsername (utf16 "user"), .changeEmail (utf16 "user@gmail.com"), .focusPassword,
    .changePassword (utf16 "Abc123!"), .changeConfirmPassword (utf16 "Abc123!") ]

/-- The state after `fillValidForm`. -/
def validForm : State :=
  fillValidForm.foldl step State.init

/-- A session in which a first, valid registration is submitted from the
password input (back in it, Enter) and succeeds, and a second one is filled in
with the password `abc`, typed into the password input while it still has the
focus: no new `onFocus`. -/
def secondRegistration : List Event :=
  fillValidForm ++
  [ .focusPassword, .submit, .settle true,
    .changePassword (utf16 "abc"), .changeConfirmPassword (utf16 "abc"),
    .changeUsername (utf16 "user"), .changeEmail (utf16 "user@gmail.com") ]

/-- The state after `secondRegistration`. -/
def secondForm : State :=
  secondRegistration.foldl step State.init

/-- The events of the user that can occur while a submission is under way:
every event but the submit (its button is disabled) and the completion. -/
def Event.isEdit : Event → Bool
  | .submit => false
  | .settle _ => false
  | _ => true

/-- Edits made while the submission of `validForm` is under way. -/
def editsWhilePending : List Event :=
  [ .changeUsername (utf16 "other"), .changePassword (utf16 "zz") ]

/-- The valid form is submitted, edited while the submission is under way, and
the submission fails. -/
def failedAfterEdits : List Event :=
  fillValidForm ++ [ .submit ] ++ editsWhilePending ++ [ .settle false ]

/-- One history of the password `abc`: focus, then type. -/
def historyA : List Event :=
  [ .focusPassword, .changePassword (utf16 "abc") ]

/-- Another history of the password `abc`: type, focus, retype, with a
username typed and deleted on the way. -/
def historyB : List Event :=
  [ .changePassword (utf16 "ab"), .changeUsername (utf16 "x"), .focusPassword,
    .changeUsername [], .changePassword (utf16 "abc") ]

/-! ## The regular expressions, in the words of the specification -/

theorem mem_codeUnitsFromTo (lo hi c : Nat) :
    c ∈ codeUnitsFromTo lo hi ↔ lo ≤ c ∧ c ≤ hi := by
  simp only [codeUnitsFromTo, List.mem_map, List.mem_range]
  constructor
  · rintro ⟨k, hk, rfl⟩
    omega
  · intro h
    exact ⟨c - lo, by omega, by omega⟩

theorem canonicalize_false (ch : Nat) : canonicalize false ch = ch := by
  simp [canonicalize]

theorem searchFrom_one (a : Atom) (ic b : Bool) (s : JSString) :
    searchFrom ⟨[.one a], ic⟩ b s = s.any (a.accepts ic) := by
  induction s generalizing b with
  | nil => simp [searchFrom, matchTerms]
  | cons ch cs ih => simp [searchFrom, matchTerms, ih]

theorem test_one (a : Atom) (ic : Bool) (s : JSString) :
    RegExp.test ⟨[.one a], ic⟩ s = true ↔ ∃ c ∈ s, a.accepts ic c = true := by
  simp [RegExp.test, searchFrom_one]

theorem accepts_cls_false (negated : Bool) (items : List ClassItem) (ch : Nat) :
    (Atom.cls negated items).accepts false ch
      = (decide (∃ it ∈ items, ch ∈ it.chars) != negated) := by
  simp only [Atom.accepts, canonicalize_false]
  congr 1
  rw [Bool.eq_iff_iff]
  simp [List.any_eq_true, List.mem_flatMap]

theorem test_upperCaseRegex (s : JSString) :
    upperCaseRegex.test s = true ↔ ∃ c ∈ s, IsUpperCaseLetter c := by
  unfold upperCaseRegex
  rw [test_one]
  simp [accepts_cls_false, ClassItem.chars, mem_codeUnitsFromTo, IsUpperCaseLetter]

theorem test_lowerCaseRegex (s : JSString) :
    lowerCaseRegex.test s = true ↔ ∃ c ∈ s, IsLowerCaseLetter c := by
  unfold lowerCaseRegex
  rw [test_one]
  simp [accepts_cls_false, ClassItem.chars, mem_codeUnitsFromTo, IsLowerCaseLetter]

theorem test_digitRegex (s : JSString) :
    digitRegex.test s = true ↔ ∃ c ∈ s, IsDigit c := by
  unfold digitRegex
  rw [test_one]
  simp [accepts_cls_false, ClassItem.chars, mem_codeUnitsFromTo, IsDigit]

theorem test_specialRegex (s : JSString) :
    specialRegex.test s = true ↔ ∃ c ∈ s, ¬ IsAlphanumeric c := by
  unfold specialRegex
  rw [test_one]
  simp only [accepts_cls_false, IsAlphanumeric, IsUpperCaseLetter, IsLowerCaseLetter, IsDigit]
  simp only [ClassItem.chars, mem_codeUnitsFromTo, List.mem_cons, List.mem_singleton,
    exists_eq_or_imp, exists_eq_left, List.not_mem_nil, false_and, exists_false, or_false,
    Bool.bne_true, Bool.not_eq_true', decide_eq_false_iff_not]

theorem matchTerms_atLeast_last (ic : Bool) (n : Nat) (a : Atom) (b : Bool) (rest : JSString) :
    matchTerms ic [.atLeast n a] b rest = true ↔ n ≤ (rest.takeWhile (a.accepts ic)).length := by
  simp only [matchTerms, Bool.and_true, List.any_eq_true, List.mem_range, decide_eq_true_eq]
  constructor
  · rintro ⟨k, hk, hn⟩
    omega
  · intro h
    exact ⟨_, Nat.lt_succ_self _, h⟩

theorem length_le_takeWhile_append (p : Nat → Bool) (mid post : JSString)
    (h : ∀ c ∈ mid, p c = true) : mid.length ≤ ((mid ++ post).takeWhile p).length := by
  induction mid with
  | nil => simp
  | cons c cs ih =>
    have hc : p c = true := h c (List.mem_cons_self _ _)
    have := ih (fun d hd => h d (List.mem_cons_of_mem _ hd))
    simp [List.takeWhile_cons, hc]
    exact this

theorem searchFrom_atLeast_last (ic : Bool) (n : Nat) (a : Atom) (b : Bool) (s : JSString) :
    searchFrom ⟨[.atLeast n a], ic⟩ b s = true ↔
      ∃ pre mid post : JSString, s = pre ++ mid ++ post ∧ n ≤ mid.length
        ∧ ∀ c ∈ mid, a.accepts ic c = true := by
  induction s generalizing b with
  | nil =>
    rw [searchFrom, matchTerms_atLeast_last]
    constructor
    · intro h
      exact ⟨[], [], [], rfl, by simpa using h, by simp⟩
    · rintro ⟨pre, mid, post, hs, hn, -⟩
      have : mid = [] := by
        have := congrArg List.length hs
        simp at this
        exact List.eq_nil_of_length_eq_zero (by omega)
      subst this
      simpa using hn
  | cons ch cs ih =>
    rw [searchFrom, Bool.or_eq_true, matchTerms_atLeast_last, ih]
    constructor
    · rintro (h | ⟨pre, mid, post, hs, hn, hm⟩)
      · refine ⟨[], (ch :: cs).takeWhile (a.accepts ic), (ch :: cs).dropWhile (a.accepts ic),
          ?_, h, ?_⟩
        · simp [List.takeWhile_append_dropWhile]
        · intro c hc
          exact List.mem_takeWhile_imp hc
      · exact ⟨ch :: pre, mid, post, by simp [hs], hn, hm⟩
    · rintro ⟨pre, mid, post, hs, hn, hm⟩
      cases pre with
      | nil =>
        left
        simp only [List.nil_append] at hs
        rw [hs]
        exact le_trans hn (length_le_takeWhile_append _ _ _ hm)
      | cons d pre =>
        right
        simp only [List.cons_append, List.cons.injEq] at hs
        exact ⟨pre, mid, post, hs.2, hn, hm⟩

theorem test_lengthRegex (s : JSString) :
    lengthRegex.test s = true ↔ HasRunWithoutLineTerminator 6 s := by
  unfold lengthRegex RegExp.test HasRunWithoutLineTerminator
  rw [searchFrom_atLeast_last]
  simp [Atom.accepts]

theorem length_of_test_lengthRegex (s : JSString) (h : lengthRegex.test s = true) :
    6 ≤ s.length := by
  obtain ⟨pre, mid, post, hs, hn, -⟩ := (test_lengthRegex s).1 h
  have := congrArg List.length hs
  simp at this
  omega

theorem test_lengthRegex_of_no_lineTerminator (s : JSString)
    (h : ∀ c ∈ s, isLineTerminator c = false) :
    lengthRegex.test s = true ↔ 6 ≤ s.length := by
  constructor
  · exact length_of_test_lengthRegex s
  · intro hn
    exact (test_lengthRegex s).2 ⟨[], s, [], by simp, hn, h⟩

theorem canonicalize_eq_iff (a b : Nat) :
    canonicalize true a = canonicalize true b ↔ asciiLowerCase a = asciiLowerCase b := by
  simp only [canonicalize, asciiLowerCase, Bool.true_and, Bool.and_eq_true, decide_eq_true_eq,
    Char.reduceToNat]
  split_ifs <;> omega

theorem map_canonicalize_eq_iff (t u : JSString) :
    t.map (canonicalize true) = u.map (canonicalize true) ↔ EqIgnoringCase t u := by
  unfold EqIgnoringCase
  induction t generalizing u with
  | nil => cases u <;> simp
  | cons a t ih =>
    cases u with
    | nil => simp
    | cons b u => simp [ih, canonicalize_eq_iff]

theorem matchTerms_litTerms (cs : List Nat) (b : Bool) (t : JSString) :
    matchTerms true (litTerms cs) b t = true ↔ EqIgnoringCase cs t := by
  rw [← map_canonicalize_eq_iff]
  induction cs generalizing b t with
  | nil =>
    cases t <;> simp [litTerms, matchTerms]
  | cons c cs ih =>
    cases t with
    | nil => simp [litTerms, matchTerms]
    | cons d t =>
      have := ih false t
      simp only [litTerms] at this
      simp [litTerms, matchTerms, Atom.accepts, this]

theorem accepts_localPartClass (ch : Nat) :
    localPartClass.accepts true ch = true ↔ IsLocalPartChar ch := by
  simp only [localPartClass, Atom.accepts, Bool.bne_false, List.any_eq_true, List.mem_flatMap,
    beq_iff_eq, IsLocalPartChar, IsWordChar, IsAlphanumeric, IsUpperCaseLetter,
    IsLowerCaseLetter, IsDigit]
  constructor
  · rintro ⟨a, ⟨it, hit, ha⟩, hc⟩
    simp only [List.mem_cons, List.mem_singleton, List.not_mem_nil, or_false] at hit
    simp only [canonicalize, Bool.true_and, Bool.and_eq_true, decide_eq_true_eq,
      Char.reduceToNat] at hc
    rcases hit with rfl | rfl | rfl | rfl | rfl | rfl <;>
      simp only [ClassItem.chars, List.mem_append, mem_codeUnitsFromTo, List.mem_singleton,
        Char.reduceToNat] at ha <;>
      simp only [Char.reduceToNat] <;>
      split_ifs at hc <;> omega
  · intro h
    refine ⟨ch, ?_, rfl⟩
    simp only [Char.reduceToNat] at h
    simp only [List.mem_cons, List.mem_singleton, List.not_mem_nil, or_false, exists_eq_or_imp,
      exists_eq_left, ClassItem.chars, List.mem_append, mem_codeUnitsFromTo, Char.reduceToNat]
    omega

theorem gmailRegex_eq :
    gmailRegex = ⟨.bol :: .atLeast 1 localPartClass :: litTerms (utf16 "@gmail.com"), true⟩ := by
  decide

theorem searchFrom_bol_false (ic : Bool) (ts : List Term) (t : JSString) :
    searchFrom ⟨.bol :: ts, ic⟩ false t = false := by
  induction t with
  | nil => simp [searchFrom, matchTerms]
  | cons c cs ih => simp [searchFrom, matchTerms, ih]

theorem test_bol (ic : Bool) (ts : List Term) (s : JSString) :
    RegExp.test ⟨.bol :: ts, ic⟩ s = matchTerms ic ts true s := by
  cases s with
  | nil => simp [RegExp.test, searchFrom, matchTerms]
  | cons c cs => simp [RegExp.test, searchFrom, matchTerms, searchFrom_bol_false]

theorem mem_take_of_le_takeWhile (p : Nat → Bool) (s : JSString) (k : Nat)
    (hk : k ≤ (s.takeWhile p).length) : ∀ c ∈ s.take k, p c = true := by
  intro c hc
  have hs : s.take k = (s.takeWhile p).take k := by
    conv_lhs => rw [← List.takeWhile_append_dropWhile p s]
    exact List.take_append_of_le_length hk
  rw [hs] at hc
  exact List.mem_takeWhile_imp (List.mem_of_mem_take hc)

theorem takeWhile_append_cons (p : Nat → Bool) (l : JSString) (x : Nat) (d : JSString)
    (hl : ∀ c ∈ l, p c = true) (hx : p x = false) : (l ++ x :: d).takeWhile p = l := by
  induction l with
  | nil => simp [List.takeWhile_cons, hx]
  | cons c cs ih =>
    have hc : p c = true := hl c (List.mem_cons_self _ _)
    simp [List.takeWhile_cons, hc, ih (fun e he => hl e (List.mem_cons_of_mem _ he))]

theorem eqIgnoringCase_at_cons (t : JSString) :
    EqIgnoringCase (utf16 "@gmail.com") t ↔
      ∃ d : JSString, t = utf16 "@" ++ d ∧ EqIgnoringCase d (utf16 "gmail.com") := by
  have h1 : utf16 "@gmail.com" = 64 :: utf16 "gmail.com" := by decide
  have h2 : utf16 "@" = [64] := by decide
  rw [h1, h2]
  unfold EqIgnoringCase
  cases t with
  | nil => simp
  | cons c d =>
    simp only [List.map_cons, List.cons.injEq, List.singleton_append]
    constructor
    · rintro ⟨hc, hd⟩
      refine ⟨d, ⟨?_, rfl⟩, hd.symm⟩
      simp only [asciiLowerCase, Char.reduceToNat] at hc
      split_ifs at hc <;> omega
    · rintro ⟨e, ⟨rfl, rfl⟩, hd⟩
      exact ⟨rfl, hd.symm⟩

theorem test_gmailRegex (s : JSString) : gmailRegex.test s = true ↔ IsGmailAddress s := by
  rw [gmailRegex_eq, test_bol]
  simp only [matchTerms, List.any_eq_true, List.mem_range, Bool.and_eq_true, decide_eq_true_eq,
    matchTerms_litTerms, eqIgnoringCase_at_cons]
  constructor
  · rintro ⟨k, hk, hk1, d, hd, hdom⟩
    refine ⟨s.take k, d, ?_, ?_, ?_, hdom⟩
    · rw [List.append_assoc, ← hd, List.take_append_drop]
    · intro h
      rcases List.take_eq_nil_iff.1 h with h0 | h0
      · omega
      · rw [h0] at hd
        have : utf16 "@" = [64] := by decide
        rw [this] at hd
        simp at hd
    · intro c hc
      exact (accepts_localPartClass c).1
        (mem_take_of_le_takeWhile _ s k (Nat.lt_succ_iff.1 hk) c hc)
  · rintro ⟨l, d, hs, hne, hl, hdom⟩
    have hat : utf16 "@" = [64] := by decide
    have htw : s.takeWhile (localPartClass.accepts true) = l := by
      rw [hs, hat, List.append_assoc]
      apply takeWhile_append_cons
      · intro c hc
        exact (accepts_localPartClass c).2 (hl c hc)
      · decide
    refine ⟨l.length, ?_, ?_, d, ?_, hdom⟩
    · rw [htw]
      exact Nat.lt_succ_self _
    · exact List.length_pos.2 hne
    · rw [hs, List.append_assoc, List.drop_left]

theorem truthy_eq_false_iff (s : JSString) : truthy s = false ↔ s = [] := by
  cases s <;> simp [truthy]

theorem truthy_eq_true_iff (s : JSString) : truthy s = true ↔ s ≠ [] := by
  cases s <;> simp [truthy]

theorem get_email (s : State) :
    (formErrorsOf s).get "email" =
      if s.email = [] then some "Email is required"
      else if gmailRegex.test s.email = true then none
      else some "Email must be a valid @gmail.com address" := by
  unfold formErrorsOf
  cases hu : truthy s.username <;> cases he : truthy s.email <;>
    cases hg : gmailRegex.test s.email <;> cases hp : truthy s.password <;>
    cases hl : decide (s.passwordErrors.length > 0) <;>
    cases hc : truthy s.confirmPassword <;>
    cases hn : (s.password != s.confirmPassword) <;>
    simp only [truthy_eq_false_iff, truthy_eq_true_iff] at he <;>
    simp only [decide_eq_true_eq, decide_eq_false_iff_not] at hl <;>
    simp only [he, hl, Bool.not_true, Bool.not_false, if_true, if_false, ↓reduceIte,
      Bool.false_eq_true] <;>
    rfl

theorem get_username (s : State) :
    (formErrorsOf s).get "username" =
      if s.username = [] then some "Username is required" else none := by
  unfold formErrorsOf
  cases hu : truthy s.username <;> cases he : truthy s.email <;>
    cases hg : gmailRegex.test s.email <;> cases hp : truthy s.password <;>
    cases hl : decide (s.passwordErrors.length > 0) <;>
    cases hc : truthy s.confirmPassword <;>
    cases hn : (s.password != s.confirmPassword) <;>
    simp only [truthy_eq_false_iff, truthy_eq_true_iff] at hu <;>
    simp only [decide_eq_true_eq, decide_eq_false_iff_not] at hl <;>
    simp only [hu, hl, Bool.not_true, Bool.not_false, if_true, if_false, ↓reduceIte,
      Bool.false_eq_true] <;>
    rfl

theorem get_password (s : State) :
    (formErrorsOf s).get "password" =
      if s.passwordErrors ≠ [] then some "Password does not meet the requirements"
      else if s.password = [] then some "Password is required"
      else none := by
  unfold formErrorsOf
  cases hu : truthy s.username <;> cases he : truthy s.email <;>
    cases hg : gmailRegex.test s.email <;> cases hp : truthy s.password <;>
    cases hl : decide (s.passwordErrors.length > 0) <;>
    cases hc : truthy s.confirmPassword <;>
    cases hn : (s.password != s.confirmPassword) <;>
    simp only [truthy_eq_false_iff, truthy_eq_true_iff] at hp <;>
    simp only [decide_eq_true_eq, decide_eq_false_iff_not, gt_iff_lt, List.length_pos,
      not_not] at hl <;>
    simp only [hp, hl, List.length_pos, gt_iff_lt, ne_eq, not_true_eq_false, not_false_eq_true,
      Bool.not_true, Bool.not_false, if_true, if_false, ↓reduceIte,
      Bool.false_eq_true] <;>
    rfl

theorem get_confirmPassword (s : State) :
    (formErrorsOf s).get "confirmPassword" =
      if s.password ≠ s.confirmPassword then some "Passwords do not match"
      else if s.confirmPassword = [] then some "Confirm Password is required"
      else none := by
  unfold formErrorsOf
  cases hu : truthy s.username <;> cases he : truthy s.email <;>
    cases hg : gmailRegex.test s.email <;> cases hp : truthy s.password <;>
    cases hl : decide (s.passwordErrors.length > 0) <;>
    cases hc : truthy s.confirmPassword <;>
    cases hn : (s.password != s.confirmPassword) <;>
    simp only [truthy_eq_false_iff, truthy_eq_true_iff] at hc <;>
    simp only [bne_iff_ne, ne_eq, bne_eq_false_iff_eq] at hn <;>
    simp only [decide_eq_true_eq, decide_eq_false_iff_not] at hl <;>
    simp only [hl, Bool.not_true, Bool.not_false, if_true, if_false, ↓reduceIte,
      Bool.false_eq_true] <;>
    split_ifs <;> first | rfl | simp_all

theorem formErrorsOf_eq_nil_iff (s : State) :
    formErrorsOf s = [] ↔
      s.username ≠ [] ∧ s.email ≠ [] ∧ gmailRegex.test s.email = true ∧ s.password ≠ [] ∧
        s.passwordErrors = [] ∧ s.confirmPassword ≠ [] ∧ s.password = s.confirmPassword := by
  unfold formErrorsOf
  cases hu : truthy s.username <;> cases he : truthy s.email <;>
    cases hg : gmailRegex.test s.email <;> cases hp : truthy s.password <;>
    cases hl : decide (s.passwordErrors.length > 0) <;>
    cases hc : truthy s.confirmPassword <;>
    cases hn : (s.password != s.confirmPassword) <;>
    simp only [decide_eq_true_eq, decide_eq_false_iff_not] at hl <;>
    simp only [hl, Bool.not_true, Bool.not_false, if_true, if_false, ↓reduceIte,
      Bool.false_eq_true] <;>
    simp only [truthy_eq_false_iff, truthy_eq_true_iff] at hu he hp hc <;>
    simp only [bne_iff_ne, ne_eq, bne_eq_false_iff_eq] at hn <;>
    simp only [gt_iff_lt, List.length_pos, not_not] at hl <;>
    simp [FormErrors.set, hu, he, hp, hc, hl, hn]


/-! ## The password rules -/

theorem unmetRequirements_eq_nil_iff (s : JSString) :
    unmetRequirements s = [] ↔
      (∃ c ∈ s, IsUpperCaseLetter c) ∧ (∃ c ∈ s, IsLowerCaseLetter c) ∧ (∃ c ∈ s, IsDigit c) ∧
        (∃ c ∈ s, ¬ IsAlphanumeric c) ∧ HasRunWithoutLineTerminator 6 s := by
  rw [← test_upperCaseRegex, ← test_lowerCaseRegex, ← test_digitRegex, ← test_specialRegex,
    ← test_lengthRegex]
  simp [unmetRequirements, passwordRequirements, List.filter_eq_nil_iff]

theorem meetsAllRequirements_of_unmetRequirements_eq_nil (s : JSString)
    (h : unmetRequirements s = []) : MeetsAllRequirements s := by
  have h5 : lengthRegex.test s = true := by
    rw [test_lengthRegex]
    exact ((unmetRequirements_eq_nil_iff s).1 h).2.2.2.2
  obtain ⟨h1, h2, h3, h4, -⟩ := (unmetRequirements_eq_nil_iff s).1 h
  exact ⟨h1, h2, h3, h4, length_of_test_lengthRegex s h5⟩

theorem unmetRequirements_eq_nil_iff_of_no_lineTerminator (s : JSString)
    (h : ∀ c ∈ s, isLineTerminator c = false) :
    unmetRequirements s = [] ↔ MeetsAllRequirements s := by
  rw [unmetRequirements_eq_nil_iff, ← test_lengthRegex, test_lengthRegex_of_no_lineTerminator s h]
  rfl

theorem mem_unmetRequirements (s : JSString) (req : Requirement) :
    req ∈ unmetRequirements s ↔ req ∈ passwordRequirements ∧ req.regex.test s = false := by
  simp [unmetRequirements, List.mem_filter]

/-! ## The effect -/

theorem useEffect_of_same (prev next : State) (hp : next.password = prev.password)
    (hv : next.showPasswordValidation = prev.showPasswordValidation) :
    useEffect prev next = next := by
  simp [useEffect, hp, hv]

theorem effectInvariant_useEffect_of_kept (prev next : State) (hprev : EffectInvariant prev)
    (hkept : next.passwordErrors = prev.passwordErrors)
    (hshow : next.showPasswordValidation = false → prev.showPasswordValidation = false) :
    EffectInvariant (useEffect prev next) := by
  unfold EffectInvariant at hprev ⊢
  unfold useEffect
  by_cases hp : next.password = prev.password
  · by_cases hv : next.showPasswordValidation = prev.showPasswordValidation
    · simp [hp, hv, hkept, hprev]
    · cases hn : next.showPasswordValidation
      · rw [hshow hn] at hv
        exact absurd hn hv
      · have hpv : prev.showPasswordValidation = false := by
          cases hq : prev.showPasswordValidation
          · rfl
          · rw [hn, hq] at hv
            exact absurd rfl hv
        simp [hp, hn, hpv, validatePassword]
  · cases hn : next.showPasswordValidation
    · simp [hp, hn, hkept, hprev, hshow hn]
    · simp [hp, hn, validatePassword]

theorem effectInvariant_useEffect_of_reset (prev next : State)
    (hshow : next.showPasswordValidation = false) (hnil : next.passwordErrors = []) :
    EffectInvariant (useEffect prev next) := by
  unfold EffectInvariant useEffect
  simp [hshow, hnil]

theorem effectInvariant_step (s : State) (e : Event) (h : EffectInvariant s) :
    EffectInvariant (step s e) := by
  unfold step
  cases e with
  | settle ok =>
    cases ok
    · exact effectInvariant_useEffect_of_kept _ _ h rfl (fun hn => hn)
    · exact effectInvariant_useEffect_of_reset _ _ rfl rfl
  | submit =>
    apply effectInvariant_useEffect_of_kept _ _ h
    · simp only [handle, handleSubmit, validateForm]
      split_ifs <;> rfl
    · simp only [handle, handleSubmit, validateForm]
      split_ifs <;> exact fun hn => hn
  | focusPassword =>
    exact effectInvariant_useEffect_of_kept _ _ h rfl (fun hn => by simp [handle] at hn)
  | _ => exact effectInvariant_useEffect_of_kept _ _ h rfl (fun hn => hn)

theorem effectInvariant_run (es : List Event) (s t : State) (h : EffectInvariant s)
    (hrun : run s es = some t) : EffectInvariant t := by
  induction es generalizing s with
  | nil =>
    simp only [run, Option.some.injEq] at hrun
    exact hrun ▸ h
  | cons e es ih =>
    simp only [run] at hrun
    split_ifs at hrun
    exact ih (step s e) (effectInvariant_step s e h) hrun

theorem effectInvariant_of_reachable (s : State) (h : Reachable s) : EffectInvariant s := by
  obtain ⟨es, hes⟩ := h
  exact effectInvariant_run es State.init s (by simp [EffectInvariant, State.init]) hes

theorem formErrorsOf_congr (s t : State) (hf : SameFieldValues s t)
    (hp : s.passwordErrors = t.passwordErrors) : formErrorsOf s = formErrorsOf t := by
  obtain ⟨h1, h2, h3, h4⟩ := hf
  simp only [formErrorsOf, h1, h2, h3, h4, hp]

/-! ## The claims -/

/-- Claim C1, at the input where the code departs from it: the password
`Aa1!`, U+2028, `b` has six code units and an uppercase letter, a lowercase
letter, a digit and a special character, yet `validatePassword` stores the rule
"at least 6 characters long" as unmet, because `.` in `/.{6,}/` does not
match a line terminator. -/
theorem validatePassword_line_separator_fails_length :
    lineSeparatorPassword.length = 6 ∧ MeetsAllRequirements lineSeparatorPassword ∧
      (validatePassword State.init lineSeparatorPassword).passwordErrors
        = [⟨lengthRegex, "at least 6 characters long"⟩] := by
  decide

/-- What `validatePassword` stores, rule by rule: a sublist of the catalog (so
in catalog order) without duplicates, in which the uppercase, lowercase, number
and special-character entries are present exactly when the password has no
such character, and the length entry exactly when the password has no run of 6
code units free of line terminators; for a password without line terminator
that is: exactly when it is shorter than 6. -/
theorem unmetRequirements_rule_by_rule (s : JSString) :
    (unmetRequirements s).Sublist passwordRequirements ∧
    (unmetRequirements s).Nodup ∧
    (⟨upperCaseRegex, "at least one uppercase letter"⟩ ∈ unmetRequirements s
      ↔ ¬ ∃ c ∈ s, IsUpperCaseLetter c) ∧
    (⟨lowerCaseRegex, "at least one lowercase letter"⟩ ∈ unmetRequirements s
      ↔ ¬ ∃ c ∈ s, IsLowerCaseLetter c) ∧
    (⟨digitRegex, "at least one number"⟩ ∈ unmetRequirements s ↔ ¬ ∃ c ∈ s, IsDigit c) ∧
    (⟨specialRegex, "at least one special character"⟩ ∈ unmetRequirements s
      ↔ ¬ ∃ c ∈ s, ¬ IsAlphanumeric c) ∧
    (⟨lengthRegex, "at least 6 characters long"⟩ ∈ unmetRequirements s
      ↔ ¬ HasRunWithoutLineTerminator 6 s) ∧
    ((∀ c ∈ s, isLineTerminator c = false) →
      (⟨lengthRegex, "at least 6 characters long"⟩ ∈ unmetRequirements s ↔ s.length < 6)) := by
  have hmem : ∀ req ∈ passwordRequirements,
      (req ∈ unmetRequirements s ↔ ¬ req.regex.test s = true) := by
    intro req hreq
    rw [mem_unmetRequirements, Bool.not_eq_true]
    exact ⟨fun h => h.2, fun h => ⟨hreq, h⟩⟩
  refine ⟨List.filter_sublist _, List.Nodup.sublist (List.filter_sublist _) (by decide),
    ?_, ?_, ?_, ?_, ?_, ?_⟩
  · rw [← test_upperCaseRegex]
    exact hmem _ (by decide)
  · rw [← test_lowerCaseRegex]
    exact hmem _ (by decide)
  · rw [← test_digitRegex]
    exact hmem _ (by decide)
  · rw [← test_specialRegex]
    exact hmem _ (by decide)
  · rw [← test_lengthRegex]
    exact hmem _ (by decide)
  · intro h
    rw [hmem _ (by decide), test_lengthRegex_of_no_lineTerminator s h]
    exact Nat.not_le

/-- Claim C2, at the input where the code departs from it: the password
`Aa1!`, U+2028, `b` is 6 code units long, so it does not fail the rule of the
catalog entry "at least 6 characters long", and yet `validatePassword` stores
that entry (and only that one): the same defect as under Claim C1. For
`abc123` the stored list is uppercase, special character, as the claim says. -/
theorem validatePassword_line_separator_stores_length_entry :
    6 ≤ lineSeparatorPassword.length ∧
    (⟨lengthRegex, "at least 6 characters long"⟩ : Requirement)
      ∈ (validatePassword State.init lineSeparatorPassword).passwordErrors ∧
    (validatePassword State.init lineSeparatorPassword).passwordErrors.map Requirement.message
      = ["at least 6 characters long"] ∧
    (validatePassword State.init (utf16 "abc123")).passwordErrors.map Requirement.message
      = ["at least one uppercase letter", "at least one special character"] := by
  decide

/-- Claim C3: `validateForm` sets the email error to "Email is required"
exactly when the email is empty; for a non-empty email it sets "Email must be a
valid @gmail.com address" exactly when the email is not of the form
`localpart@gmail.com` (local part of one or more of `[A-Za-z0-9_]`, `.`, `_`,
`%`, `+`, `-`; domain compared ignoring case), and no email error otherwise. -/
theorem validateForm_email_error (s : State) :
    ((validateForm s).1.errors.get "email" = some "Email is required" ↔ s.email = []) ∧
    (s.email ≠ [] →
      ((validateForm s).1.errors.get "email" = some "Email must be a valid @gmail.com address"
        ↔ ¬ IsGmailAddress s.email)) ∧
    (s.email ≠ [] → IsGmailAddress s.email → (validateForm s).1.errors.get "email" = none) := by
  show ((formErrorsOf s).get "email" = _ ↔ _) ∧ (_ → ((formErrorsOf s).get "email" = _ ↔ _)) ∧
    (_ → _ → (formErrorsOf s).get "email" = _)
  rw [get_email, ← test_gmailRegex]
  refine ⟨?_, ?_, ?_⟩
  · split_ifs <;> simp_all
  · intro h
    split_ifs <;> simp_all
  · intro h hg
    simp [h, hg]

/-- Claim C3 at the inputs the specification names: `user@yahoo.com` gets the
Gmail-format error, `user@gmail.com` gets no email error. -/
theorem validateForm_email_error_witness :
    (validateForm (formWith "" "user@yahoo.com" "" "")).1.errors.get "email"
        = some "Email must be a valid @gmail.com address" ∧
    (validateForm (formWith "" "user@gmail.com" "" "")).1.errors.get "email" = none :=
  ⟨((validateForm_email_error (formWith "" "user@yahoo.com" "" "")).2.1 (by decide)).2
      (fun h => absurd ((test_gmailRegex _).2 h) (by decide)),
    (validateForm_email_error (formWith "" "user@gmail.com" "" "")).2.2 (by decide)
      ((test_gmailRegex _).1 (by decide))⟩


/-- Claim C4 fails as stated: after the password input got the focus, with all
four fields still empty, the password is empty and yet the password error is
"Password does not meet the requirements", not "Password is required", and the
error mapping is not the four "required" messages. -/
theorem password_required_overwritten_after_focus :
    Reachable focusedEmptyForm ∧
    focusedEmptyForm.username = [] ∧ focusedEmptyForm.email = [] ∧
    focusedEmptyForm.password = [] ∧ focusedEmptyForm.confirmPassword = [] ∧
    ¬ ((validateForm focusedEmptyForm).1.errors.get "password" = some "Password is required"
        ↔ focusedEmptyForm.password = []) ∧
    (validateForm focusedEmptyForm).1.errors.get "password"
      = some "Password does not meet the requirements" ∧
    (validateForm focusedEmptyForm).1.errors ≠
      [("username", "Username is required"), ("email", "Email is required"),
        ("password", "Password is required"),
        ("confirmPassword", "Confirm Password is required")] :=
  ⟨⟨[.focusPassword], by decide⟩, by decide, by decide, by decide, by decide, by decide,
    by decide, by decide⟩

/-- Claim C4, amended: `validateForm` sets the password error to "Password does
not meet the requirements" exactly when the unmet-requirements list is
non-empty, to "Password is required" exactly when the password is empty and
that list is empty, and sets no password error exactly when the password is
non-empty and that list is empty. When all four fields are empty and the list
is empty, the mapping is exactly the four "required" messages. -/
theorem validateForm_password_error (s : State) :
    ((validateForm s).1.errors.get "password" = some "Password does not meet the requirements"
      ↔ s.passwordErrors ≠ []) ∧
    ((validateForm s).1.errors.get "password" = some "Password is required"
      ↔ s.password = [] ∧ s.passwordErrors = []) ∧
    ((validateForm s).1.errors.get "password" = none
      ↔ s.password ≠ [] ∧ s.passwordErrors = []) ∧
    (s.username = [] → s.email = [] → s.password = [] → s.confirmPassword = [] →
      s.passwordErrors = [] →
      (validateForm s).1.errors =
        [("username", "Username is required"), ("email", "Email is required"),
          ("password", "Password is required"),
          ("confirmPassword", "Confirm Password is required")]) := by
  refine ⟨?_, ?_, ?_, ?_⟩
  · show (formErrorsOf s).get "password" = _ ↔ _
    rw [get_password]
    split_ifs <;> simp_all
  · show (formErrorsOf s).get "password" = _ ↔ _
    rw [get_password]
    split_ifs <;> simp_all
  · show (formErrorsOf s).get "password" = _ ↔ _
    rw [get_password]
    split_ifs <;> simp_all
  · intro hu he hp hc hl
    show formErrorsOf s = _
    simp only [formErrorsOf, hu, he, hp, hc, hl]
    decide

/-- Claim C4, amended, at the initial state: all four fields empty and no unmet
requirement stored. -/
theorem validateForm_password_error_witness :
    (validateForm State.init).1.errors =
      [("username", "Username is required"), ("email", "Email is required"),
        ("password", "Password is required"),
        ("confirmPassword", "Confirm Password is required")] :=
  (validateForm_password_error State.init).2.2.2 rfl rfl rfl rfl rfl

/-- Claim C5 fails as stated: with the password `Abc123!` and an empty
confirmation, the confirmation is empty and yet its error is "Passwords do not
match", not "Confirm Password is required". -/
theorem confirm_required_overwritten_by_mismatch :
    (formWith "" "" "Abc123!" "").confirmPassword = [] ∧
    ¬ ((validateForm (formWith "" "" "Abc123!" "")).1.errors.get "confirmPassword"
          = some "Confirm Password is required"
        ↔ (formWith "" "" "Abc123!" "").confirmPassword = []) ∧
    (validateForm (formWith "" "" "Abc123!" "")).1.errors.get "confirmPassword"
      = some "Passwords do not match" :=
  ⟨by decide, by decide, by decide⟩

/-- Claim C5, amended: `validateForm` sets the confirmation error to "Passwords
do not match" exactly when password and confirmation differ (also when the
confirmation is empty), to "Confirm Password is required" exactly when both are
empty, and sets no confirmation error exactly when they are equal and
non-empty. -/
theorem validateForm_confirmPassword_error (s : State) :
    ((validateForm s).1.errors.get "confirmPassword" = some "Passwords do not match"
      ↔ s.password ≠ s.confirmPassword) ∧
    ((validateForm s).1.errors.get "confirmPassword" = some "Confirm Password is required"
      ↔ s.confirmPassword = [] ∧ s.password = []) ∧
    ((validateForm s).1.errors.get "confirmPassword" = none
      ↔ s.confirmPassword ≠ [] ∧ s.password = s.confirmPassword) := by
  refine ⟨?_, ?_, ?_⟩
  · show (formErrorsOf s).get "confirmPassword" = _ ↔ _
    rw [get_confirmPassword]
    split_ifs <;> simp_all
  · show (formErrorsOf s).get "confirmPassword" = _ ↔ _
    rw [get_confirmPassword]
    split_ifs with h1 h2
    · simp only [Option.some.injEq, String.reduceEq, false_iff, not_and]
      intro hc hp
      exact h1 (hp.trans hc.symm)
    · simp_all
    · simp_all
  · show (formErrorsOf s).get "confirmPassword" = _ ↔ _
    rw [get_confirmPassword]
    split_ifs <;> simp_all

/-- Claim C5, amended, at the inputs the specification names: password
`Abc123!` with confirmation `Abc123!` gives no confirmation error, with
confirmation `Abc123` gives "Passwords do not match". -/
theorem validateForm_confirmPassword_error_witness :
    (validateForm (formWith "" "" "Abc123!" "Abc123!")).1.errors.get "confirmPassword" = none ∧
    (validateForm (formWith "" "" "Abc123!" "Abc123")).1.errors.get "confirmPassword"
      = some "Passwords do not match" :=
  ⟨(validateForm_confirmPassword_error (formWith "" "" "Abc123!" "Abc123!")).2.2.2
      ⟨by decide, by decide⟩,
    (validateForm_confirmPassword_error (formWith "" "" "Abc123!" "Abc123")).1.2 (by decide)⟩


/-- Claim C6 fails as stated: the initial state and the state after the
password input got the focus are both reachable and have the same four field
values (all empty), but the first stores no unmet requirement and validates to
"Password is required", the second stores all five and validates to "Password
does not meet the requirements". -/
theorem same_fields_different_errors :
    Reachable State.init ∧ Reachable focusedEmptyForm ∧
    SameFieldValues State.init focusedEmptyForm ∧
    State.init.passwordErrors ≠ focusedEmptyForm.passwordErrors ∧
    (validateForm State.init).1.errors ≠ (validateForm focusedEmptyForm).1.errors :=
  ⟨⟨[], rfl⟩, ⟨[.focusPassword], by decide⟩, by decide, by decide, by decide⟩

/-- Claim C6, amended: two reachable states with the same four field values
and the same `showPasswordValidation` flag have the same `passwordErrors` and
validate to the same error mapping, whatever events led to them. -/
theorem errors_determined_by_fields_and_validation_flag (s t : State)
    (hs : Reachable s) (ht : Reachable t) (hf : SameFieldValues s t)
    (hv : s.showPasswordValidation = t.showPasswordValidation) :
    s.passwordErrors = t.passwordErrors ∧
      (validateForm s).1.errors = (validateForm t).1.errors := by
  have hp : s.passwordErrors = t.passwordErrors := by
    rw [effectInvariant_of_reachable s hs, effectInvariant_of_reachable t ht, hv, hf.2.2.1]
  exact ⟨hp, formErrorsOf_congr s t hf hp⟩

/-- Claim C6, amended, at two histories of the password `abc`: typed after the
focus, and typed before and again after it. -/
theorem errors_determined_by_fields_and_validation_flag_witness :
    historyA ≠ historyB ∧
    (historyA.foldl step State.init).passwordErrors
        = (historyB.foldl step State.init).passwordErrors ∧
    (validateForm (historyA.foldl step State.init)).1.errors
        = (validateForm (historyB.foldl step State.init)).1.errors :=
  ⟨by decide,
    errors_determined_by_fields_and_validation_flag _ _ ⟨historyA, by decide⟩
      ⟨historyB, by decide⟩ (by decide) (by decide)⟩

/-- Claim C7: `validateForm` returns true exactly when the mapping it produces
is empty; when the mapping is non-empty, `handleSubmit` starts no submission
and changes nothing but the stored errors, which become that mapping: the four
field values, the success message and `isSubmitting` are as before (so
`isSubmitting` stays false when it was), also after the effect. -/
theorem handleSubmit_invalid_makes_no_transition (s : State) :
    ((validateForm s).2 = true ↔ (validateForm s).1.errors = []) ∧
    ((validateForm s).1.errors ≠ [] →
      (handleSubmit s).2 = none ∧
      (handleSubmit s).1 = { s with errors := (validateForm s).1.errors } ∧
      step s .submit = { s with errors := (validateForm s).1.errors } ∧
      (step s .submit).isSubmitting = s.isSubmitting ∧
      (s.isSubmitting = false → (step s .submit).isSubmitting = false) ∧
      (step s .submit).username = s.username ∧ (step s .submit).email = s.email ∧
      (step s .submit).password = s.password ∧
      (step s .submit).confirmPassword = s.confirmPassword ∧
      (step s .submit).successMessage = s.successMessage ∧
      (step s .submit).errors = (validateForm s).1.errors) := by
  have hiff : (validateForm s).2 = true ↔ (validateForm s).1.errors = [] := by
    show ((formErrorsOf s).length == 0) = true ↔ formErrorsOf s = []
    simp [List.length_eq_zero]
  refine ⟨hiff, fun hne => ?_⟩
  have hvalid : (validateForm s).2 = false := by
    cases h : (validateForm s).2
    · rfl
    · exact absurd (hiff.1 h) hne
  have h1 : handleSubmit s = ({ s with errors := (validateForm s).1.errors }, none) := by
    have : ((formErrorsOf s).length == 0) = false := hvalid
    simp only [handleSubmit, validateForm, this]
    rfl
  have h2 : step s .submit = { s with errors := (validateForm s).1.errors } := by
    simp only [step, handle, h1]
    exact useEffect_of_same _ _ rfl rfl
  rw [h2, h1]
  exact ⟨rfl, rfl, rfl, rfl, fun h => h, rfl, rfl, rfl, rfl, rfl, rfl⟩

/-- Claim C7 at the initial state, whose mapping is not empty. -/
theorem handleSubmit_invalid_makes_no_transition_witness :
    (handleSubmit State.init).2 = none ∧
    step State.init .submit = { State.init with errors := (validateForm State.init).1.errors } ∧
    (step State.init .submit).isSubmitting = false :=
  ⟨((handleSubmit_invalid_makes_no_transition State.init).2 (by decide)).1,
    ((handleSubmit_invalid_makes_no_transition State.init).2 (by decide)).2.2.1,
    ((handleSubmit_invalid_makes_no_transition State.init).2 (by decide)).2.2.2.2.1 rfl⟩


theorem handleSubmit_of_valid (s : State) (h : (validateForm s).2 = true) :
    handleSubmit s =
      ({ s with errors := [], isSubmitting := true, successMessage := "" },
        some ⟨s.username, s.email, s.password⟩) := by
  have hlen : ((formErrorsOf s).length == 0) = true := h
  have hnil : formErrorsOf s = [] := by simpa [List.length_eq_zero] using hlen
  simp only [handleSubmit, validateForm, hlen, hnil]
  rfl

theorem step_submit_of_valid (s : State) (h : (validateForm s).2 = true) :
    step s .submit = { s with errors := [], isSubmitting := true, successMessage := "" } := by
  simp only [step, handle, handleSubmit_of_valid s h]
  exact useEffect_of_same _ _ rfl rfl

theorem step_settle_true (s : State) :
    step s (.settle true) =
      { s with
        successMessage := "Registration successful!"
        username := []
        email := []
        password := []
        confirmPassword := []
        errors := []
        passwordErrors := []
        showPasswordValidation := false
        isSubmitting := false } := by
  simp only [step, handle, handleSubmitSettled, useEffect]
  split_ifs <;> first | rfl | simp_all

theorem step_settle_false (s : State) :
    step s (.settle false) =
      { s with
        errors := [("submit", "An error occurred during submission. Please try again.")]
        isSubmitting := false } := by
  simp only [step, handle, handleSubmitSettled]
  exact useEffect_of_same _ _ rfl rfl

/-- Claim C8: from a state that passes validation, `handleSubmit` starts the
submission (`isSubmitting` true), and when it completes successfully the four
fields are empty, the error mapping and the unmet-requirements list are empty,
the display of the password rules is off, the success message is "Registration
successful!" and `isSubmitting` is false. -/
theorem submission_success_resets_form (s : State) (h : (validateForm s).2 = true) :
    (handleSubmit s).2 = some ⟨s.username, s.email, s.password⟩ ∧
    (step s .submit).isSubmitting = true ∧
    enabled (step s .submit) (.settle true) = true ∧
    (step (step s .submit) (.settle true)).username = [] ∧
    (step (step s .submit) (.settle true)).email = [] ∧
    (step (step s .submit) (.settle true)).password = [] ∧
    (step (step s .submit) (.settle true)).confirmPassword = [] ∧
    (step (step s .submit) (.settle true)).errors = [] ∧
    (step (step s .submit) (.settle true)).passwordErrors = [] ∧
    (step (step s .submit) (.settle true)).showPasswordValidation = false ∧
    (step (step s .submit) (.settle true)).successMessage = "Registration successful!" ∧
    (step (step s .submit) (.settle true)).isSubmitting = false := by
  rw [step_settle_true, step_submit_of_valid s h, handleSubmit_of_valid s h]
  exact ⟨rfl, rfl, rfl, rfl, rfl, rfl, rfl, rfl, rfl, rfl, rfl, rfl⟩

/-- Claim C8 at a filled-in valid form (`user`, `user@gmail.com`, `Abc123!`
twice), which is reachable and passes validation. -/
theorem submission_success_resets_form_witness :
    Reachable validForm ∧ (validateForm validForm).2 = true ∧
    (step (step validForm .submit) (.settle true)).password = [] ∧
    (step (step validForm .submit) (.settle true)).successMessage
      = "Registration successful!" ∧
    (step (step validForm .submit) (.settle true)).isSubmitting = false :=
  ⟨⟨fillValidForm, by decide⟩, by decide,
    (submission_success_resets_form validForm (by decide)).2.2.2.2.2.1,
    (submission_success_resets_form validForm (by decide)).2.2.2.2.2.2.2.2.2.2.1,
    (submission_success_resets_form validForm (by decide)).2.2.2.2.2.2.2.2.2.2.2⟩

theorem step_edit (s : State) (e : Event) (he : e.isEdit = true) :
    (step s e).isSubmitting = s.isSubmitting ∧ (step s e).successMessage = s.successMessage := by
  cases e with
  | submit => exact absurd he (by simp [Event.isEdit])
  | settle ok => exact absurd he (by simp [Event.isEdit])
  | _ =>
    simp only [step, handle, useEffect, validatePassword]
    split_ifs <;> exact ⟨rfl, rfl⟩

theorem foldl_step_edits (mid : List Event) (s : State) (hmid : ∀ e ∈ mid, e.isEdit = true) :
    (mid.foldl step s).isSubmitting = s.isSubmitting ∧
      (mid.foldl step s).successMessage = s.successMessage := by
  induction mid generalizing s with
  | nil => exact ⟨rfl, rfl⟩
  | cons e es ih =>
    have h1 := step_edit s e (hmid e (List.mem_cons_self _ _))
    have h2 := ih (step s e) (fun x hx => hmid x (List.mem_cons_of_mem _ hx))
    exact ⟨h2.1.trans h1.1, h2.2.trans h1.2⟩

theorem run_edits (mid : List Event) (s : State) (hmid : ∀ e ∈ mid, e.isEdit = true) :
    run s mid = some (mid.foldl step s) := by
  induction mid generalizing s with
  | nil => rfl
  | cons e es ih =>
    have he : enabled s e = true := by
      have := hmid e (List.mem_cons_self _ _)
      cases e with
      | submit => exact absurd this (by simp [Event.isEdit])
      | settle ok => exact absurd this (by simp [Event.isEdit])
      | _ => rfl
    simp only [run, he, if_true, List.foldl_cons]
    exact ih (step s e) (fun x hx => hmid x (List.mem_cons_of_mem _ hx))

/-- Claim C9 fails as stated: the valid form is submitted, the username and the
password are edited while the submission is under way (the inputs are never
disabled), and the submission fails; the state is reachable, and its username
and password are not those from before the submit. -/
theorem fields_edited_while_pending_differ :
    Reachable validForm ∧ (validateForm validForm).2 = true ∧
    run State.init failedAfterEdits
      = some (step (editsWhilePending.foldl step (step validForm .submit)) (.settle false)) ∧
    (step (editsWhilePending.foldl step (step validForm .submit)) (.settle false)).username
      ≠ validForm.username ∧
    (step (editsWhilePending.foldl step (step validForm .submit)) (.settle false)).password
      ≠ validForm.password :=
  ⟨⟨fillValidForm, by decide⟩, by decide, by decide, by decide, by decide⟩

/-- Claim C9, amended: from a state that passes validation, whatever the user
edits while the submission is under way, when the awaited submission fails
the error mapping is exactly the one `submit` message, the four field values
are left as they were at the time of the failure (so, when nothing was edited
meanwhile, as before the submit), there is no success message and
`isSubmitting` is false. -/
theorem submission_failure_leaves_fields_untouched (s : State) (mid : List Event)
    (h : (validateForm s).2 = true) (hmid : ∀ e ∈ mid, e.isEdit = true) :
    (step s .submit).isSubmitting = true ∧
    run (step s .submit) (mid ++ [.settle false])
      = some (step (mid.foldl step (step s .submit)) (.settle false)) ∧
    (step (mid.foldl step (step s .submit)) (.settle false)).errors =
      [("submit", "An error occurred during submission. Please try again.")] ∧
    (step (mid.foldl step (step s .submit)) (.settle false)).username
      = (mid.foldl step (step s .submit)).username ∧
    (step (mid.foldl step (step s .submit)) (.settle false)).email
      = (mid.foldl step (step s .submit)).email ∧
    (step (mid.foldl step (step s .submit)) (.settle false)).password
      = (mid.foldl step (step s .submit)).password ∧
    (step (mid.foldl step (step s .submit)) (.settle false)).confirmPassword
      = (mid.foldl step (step s .submit)).confirmPassword ∧
    (mid = [] →
      (step (mid.foldl step (step s .submit)) (.settle false)).username = s.username ∧
      (step (mid.foldl step (step s .submit)) (.settle false)).email = s.email ∧
      (step (mid.foldl step (step s .submit)) (.settle false)).password = s.password ∧
      (step (mid.foldl step (step s .submit)) (.settle false)).confirmPassword
        = s.confirmPassword) ∧
    (step (mid.foldl step (step s .submit)) (.settle false)).successMessage = "" ∧
    (step (mid.foldl step (step s .submit)) (.settle false)).isSubmitting = false := by
  have hsub := step_submit_of_valid s h
  have hmidState := foldl_step_edits mid (step s .submit) hmid
  have hpending : (mid.foldl step (step s .submit)).isSubmitting = true := by
    rw [hmidState.1, hsub]
  have hmsg : (mid.foldl step (step s .submit)).successMessage = "" := by
    rw [hmidState.2, hsub]
  refine ⟨by rw [hsub], ?_, ?_, ?_, ?_, ?_, ?_, ?_, ?_, ?_⟩
  · have hrun : ∀ (es : List Event) (a : State), run a es = some (es.foldl step a) →
        enabled (es.foldl step a) (.settle false) = true →
        run a (es ++ [.settle false]) = some (step (es.foldl step a) (.settle false)) := by
      intro es
      induction es with
      | nil =>
        intro a _ hen
        simp only [List.nil_append, run, List.foldl_nil] at hen ⊢
        rw [hen]
        rfl
      | cons e es ih =>
        intro a ha hen
        simp only [List.cons_append, run, List.foldl_cons] at ha hen ⊢
        split_ifs at ha ⊢
        exact ih (step a e) ha hen
    exact hrun mid _ (run_edits mid _ hmid) hpending
  · rw [step_settle_false]
  · rw [step_settle_false]
  · rw [step_settle_false]
  · rw [step_settle_false]
  · rw [step_settle_false]
  · intro hnil
    subst hnil
    rw [step_settle_false, List.foldl_nil, hsub]
    exact ⟨rfl, rfl, rfl, rfl⟩
  · rw [step_settle_false]
    exact hmsg
  · rw [step_settle_false]

/-- Claim C9, amended, at the filled-in valid form with the username and the
password edited while the submission is under way. -/
theorem submission_failure_leaves_fields_untouched_witness :
    (validateForm validForm).2 = true ∧
    (step (editsWhilePending.foldl step (step validForm .submit)) (.settle false)).errors =
      [("submit", "An error occurred during submission. Please try again.")] ∧
    (step (editsWhilePending.foldl step (step validForm .submit)) (.settle false)).password
      = utf16 "zz" ∧
    (step (editsWhilePending.foldl step (step validForm .submit)) (.settle false)).isSubmitting
      = false :=
  ⟨by decide,
    (submission_failure_leaves_fields_untouched validForm editsWhilePending (by decide)
      (by decide)).2.2.1,
    ((submission_failure_leaves_fields_untouched validForm editsWhilePending (by decide)
      (by decide)).2.2.2.2.2.1).trans (by decide),
    (submission_failure_leaves_fields_untouched validForm editsWhilePending (by decide)
      (by decide)).2.2.2.2.2.2.2.2.2⟩

/-- Claim C10, at the input where the code departs from it: after a first
registration succeeded, the second one is filled in with the password `abc`
without the password input getting the focus anew; the state is reachable, the
submit button is enabled, `handleSubmit` passes validation and starts the
submission of `abc`, which fails four of the five rules. -/
theorem weak_password_is_submitted :
    run State.init secondRegistration = some secondForm ∧
    enabled secondForm .submit = true ∧
    secondForm.password = utf16 "abc" ∧
    (validateForm secondForm).2 = true ∧
    (handleSubmit secondForm).2
      = some ⟨utf16 "user", utf16 "user@gmail.com", utf16 "abc"⟩ ∧
    (step secondForm .submit).isSubmitting = true ∧
    ¬ MeetsAllRequirements secondForm.password ∧
    (unmetRequirements secondForm.password).map Requirement.message =
      ["at least one uppercase letter", "at least one number",
        "at least one special character", "at least 6 characters long"] := by
  decide

/-- What holds of Claim C10: in a reachable state in which the password rules
are displayed, a form that passes validation has a password that meets all
five rules. -/
theorem submitted_password_meets_requirements_when_displayed (s : State)
    (hs : Reachable s) (hshow : s.showPasswordValidation = true)
    (h : (validateForm s).2 = true) : MeetsAllRequirements s.password := by
  have hlen : ((formErrorsOf s).length == 0) = true := h
  have hnil : formErrorsOf s = [] := by simpa [List.length_eq_zero] using hlen
  have hpe : s.passwordErrors = [] := ((formErrorsOf_eq_nil_iff s).1 hnil).2.2.2.2.1
  have hinv := effectInvariant_of_reachable s hs
  rw [EffectInvariant, hshow, if_pos rfl] at hinv
  exact meetsAllRequirements_of_unmetRequirements_eq_nil _ (hinv.symm.trans hpe)

/-- The previous theorem at the filled-in valid form. -/
theorem submitted_password_meets_requirements_when_displayed_witness :
    MeetsAllRequirements validForm.password :=
  submitted_password_meets_requirements_when_displayed validForm ⟨fillValidForm, by decide⟩
    (by decide) (by decide)

end SignUpForm
